import Mathlib

/-!
Shallow embedding of the data-import script src/import_pl_2025_26.py.

The script converts two tabular datasets (players, teams) into a normalized
document.  We model pandas cell values with an explicit `Value` type
(NA / integer / string), pure functions of the script directly as Lean
functions, and the orchestrator `main` as an `Except`-valued pipeline over
in-memory tables (file I/O, argument parsing and JSON printing are outside
the modelled core, as the spec also excludes them).
-/

/-- A pandas cell value: missing (NaN), an integer, or a string.
Floats other than NaN do not occur in the modelled tables. -/
inductive Value where
  | vNA : Value
  | vInt : Int → Value
  | vStr : String → Value
deriving DecidableEq, Repr

/-- pd.notna: false exactly on missing values. -/
def notna : Value → Bool
  | .vNA => false
  | _ => true

/-- Python str() on a cell value; str(float nan) is "nan". -/
def pyStr : Value → String
  | .vNA => "nan"
  | .vInt i => toString i
  | .vStr s => s

/-- str.strip(): drop whitespace from both ends.  List-based structural
recursion so that the kernel can evaluate it (String.trim is defined by
well-founded recursion on byte positions and does not reduce). -/
def pyStrip (s : String) : String :=
  String.mk (((s.data.dropWhile Char.isWhitespace).reverse.dropWhile Char.isWhitespace).reverse)

/-- str.upper() (ASCII model). -/
def pyUpper (s : String) : String := String.mk (s.data.map Char.toUpper)

/-- str.lower() (ASCII model). -/
def pyLower (s : String) : String := String.mk (s.data.map Char.toLower)

/-- str.startswith. -/
def pyStartsWith (s pre : String) : Bool := pre.data.isPrefixOf s.data

/-- Numeric value of a list of decimal digit characters. -/
def digitsVal (ds : List Char) : Nat :=
  ds.foldl (fun a c => a * 10 + (c.toNat - 48)) 0

/-- Python int(string): strip surrounding whitespace, optional sign,
then decimal digits (ASCII model).  None models a raised ValueError. -/
def parseIntStr (s : String) : Option Int :=
  match (pyStrip s).toList with
  | [] => none
  | c :: rest =>
    if c = '-' then
      if rest ≠ [] ∧ rest.all (·.isDigit) then some (-(digitsVal rest : Int)) else none
    else if c = '+' then
      if rest ≠ [] ∧ rest.all (·.isDigit) then some (digitsVal rest : Int) else none
    else if (c :: rest).all (·.isDigit) then some (digitsVal (c :: rest) : Int)
    else none

/-- Python int() applied to a cell value; int(NaN) raises, so NA gives none. -/
def pythonInt : Value → Option Int
  | .vNA => none
  | .vInt i => some i
  | .vStr s => parseIntStr s

/-! ## SHA-256 (hashlib.sha256), on byte lists, words as Nat mod 2^32 -/

/-- Truncate to a 32-bit word. -/
def w32 (n : Nat) : Nat := n % 4294967296

/-- 32-bit addition. -/
def wadd (a b : Nat) : Nat := (a + b) % 4294967296

/-- Rotate a 32-bit word right by n bits. -/
def rotr (x n : Nat) : Nat := ((x >>> n) ||| (x <<< (32 - n))) % 4294967296

/-- Bitwise complement within 32 bits. -/
def wnot (x : Nat) : Nat := x ^^^ 4294967295

def shaCh (e f g : Nat) : Nat := (e &&& f) ^^^ (wnot e &&& g)

def shaMaj (a b c : Nat) : Nat := (a &&& b) ^^^ (a &&& c) ^^^ (b &&& c)

def bigSigma0 (a : Nat) : Nat := rotr a 2 ^^^ rotr a 13 ^^^ rotr a 22

def bigSigma1 (e : Nat) : Nat := rotr e 6 ^^^ rotr e 11 ^^^ rotr e 25

def smallSigma0 (x : Nat) : Nat := rotr x 7 ^^^ rotr x 18 ^^^ (x >>> 3)

def smallSigma1 (x : Nat) : Nat := rotr x 17 ^^^ rotr x 19 ^^^ (x >>> 10)

/-- The 64 SHA-256 round constants (FIPS 180-4), written in decimal. -/
def K256 : List Nat :=
  [1116352408, 1899447441, 3049323471, 3921009573, 961987163, 1508970993,
   2453635748, 2870763221, 3624381080, 310598401, 607225278, 1426881987,
   1925078388, 2162078206, 2614888103, 3248222580, 3835390401, 4022224774,
   264347078, 604807628, 770255983, 1249150122, 1555081692, 1996064986,
   2554220882, 2821834349, 2952996808, 3210313671, 3336571891, 3584528711,
   113926993, 338241895, 666307205, 773529912, 1294757372, 1396182291,
   1695183700, 1986661051, 2177026350, 2456956037, 2730485921, 2820302411,
   3259730800, 3345764771, 3516065817, 3600352804, 4094571909, 275423344,
   430227734, 506948616, 659060556, 883997877, 958139571, 1322822218,
   1537002063, 1747873779, 1955562222, 2024104815, 2227730452, 2361852424,
   2428436474, 2756734187, 3204031479, 3329325298]

/-- Initial SHA-256 hash state, written in decimal. -/
def H256 : List Nat :=
  [1779033703, 3144134277, 1013904242, 2773480762,
   1359893119, 2600822924, 528734635, 1541459225]

/-- UTF-8 encoding of one character. -/
def utf8Char (c : Char) : List Nat :=
  let n := c.toNat
  if n < 0x80 then [n]
  else if n < 0x800 then
    [0xC0 ||| (n >>> 6), 0x80 ||| (n &&& 0x3F)]
  else if n < 0x10000 then
    [0xE0 ||| (n >>> 12), 0x80 ||| ((n >>> 6) &&& 0x3F), 0x80 ||| (n &&& 0x3F)]
  else
    [0xF0 ||| (n >>> 18), 0x80 ||| ((n >>> 12) &&& 0x3F),
     0x80 ||| ((n >>> 6) &&& 0x3F), 0x80 ||| (n &&& 0x3F)]

/-- UTF-8 bytes of a string (seed.encode in the script). -/
def utf8Bytes (s : String) : List Nat :=
  (s.toList.map utf8Char).flatten

/-- The 64-bit big-endian byte representation of a number. -/
def be64 (n : Nat) : List Nat :=
  [(n >>> 56) &&& 255, (n >>> 48) &&& 255, (n >>> 40) &&& 255, (n >>> 32) &&& 255,
   (n >>> 24) &&& 255, (n >>> 16) &&& 255, (n >>> 8) &&& 255, n &&& 255]

/-- SHA-256 padding: append 0x80, zeros to 56 mod 64, then the bit length. -/
def padMsg (msg : List Nat) : List Nat :=
  let L := msg.length
  let k := (120 - (L + 1) % 64) % 64
  msg ++ [0x80] ++ List.replicate k 0 ++ be64 (8 * L)

/-- Big-endian 32-bit words from a list of bytes. -/
def toWords : List Nat → List Nat
  | b0 :: b1 :: b2 :: b3 :: rest =>
    ((b0 <<< 24) + (b1 <<< 16) + (b2 <<< 8) + b3) :: toWords rest
  | _ => []

/-- Extend the 16 block words with `fuel` further schedule words. -/
def extendW (w : List Nat) : Nat → List Nat
  | 0 => w
  | fuel + 1 =>
    let i := w.length
    let nw := wadd (wadd (smallSigma1 (w.getD (i - 2) 0)) (w.getD (i - 7) 0))
                   (wadd (smallSigma0 (w.getD (i - 15) 0)) (w.getD (i - 16) 0))
    extendW (w ++ [nw]) fuel

/-- The 64-entry message schedule of one block. -/
def schedule (block : List Nat) : List Nat := extendW (toWords block) 48

/-- One compression round; the state is the 8-word list [a,b,c,d,e,f,g,h]. -/
def compressStep (st : List Nat) (kw : Nat × Nat) : List Nat :=
  match st with
  | [a, b, c, d, e, f, g, hh] =>
    let t1 := wadd (wadd (wadd hh (bigSigma1 e)) (wadd (shaCh e f g) kw.1)) kw.2
    let t2 := wadd (bigSigma0 a) (shaMaj a b c)
    [wadd t1 t2, a, b, c, wadd d t1, e, f, g]
  | other => other

/-- Process one 64-byte block. -/
def processBlock (H : List Nat) (block : List Nat) : List Nat :=
  let st := (K256.zip (schedule block)).foldl compressStep H
  (H.zip st).map (fun p => wadd p.1 p.2)

/-- Process a padded message, 64 bytes at a time. -/
def processBlocks (H : List Nat) (l : List Nat) : List Nat :=
  match l with
  | [] => H
  | b :: bs => processBlocks (processBlock H ((b :: bs).take 64)) ((b :: bs).drop 64)
termination_by l.length
decreasing_by simp [List.length_drop]; omega

/-- The eight 32-bit digest words of a byte message. -/
def sha256words (msg : List Nat) : List Nat := processBlocks H256 (padMsg msg)

/-- Lowercase hex digit. -/
def hexChar (n : Nat) : Char :=
  if n < 10 then Char.ofNat (48 + n) else Char.ofNat (87 + n)

/-- Eight hex characters of a 32-bit word, most significant first. -/
def wordHex (w : Nat) : List Char :=
  [hexChar ((w >>> 28) &&& 15), hexChar ((w >>> 24) &&& 15),
   hexChar ((w >>> 20) &&& 15), hexChar ((w >>> 16) &&& 15),
   hexChar ((w >>> 12) &&& 15), hexChar ((w >>> 8) &&& 15),
   hexChar ((w >>> 4) &&& 15), hexChar (w &&& 15)]

/-- hashlib.sha256(...).hexdigest() on a byte message. -/
def sha256hex (msg : List Nat) : String :=
  String.mk (((sha256words msg).map wordHex).flatten)

/-- Value of a lowercase hex digit. -/
def hexDigitVal (c : Char) : Nat :=
  if c.isDigit then c.toNat - 48 else c.toNat - 87

/-- int(·, 16) on a list of lowercase hex characters. -/
def hexVal (cs : List Char) : Nat :=
  cs.foldl (fun a c => a * 16 + hexDigitVal c) 0

/-- stable_int(seed, mod): first 12 hex characters of the SHA-256 hexdigest
of the UTF-8 encoded seed, read base 16, reduced mod `mod`. -/
def stable_int (seed : String) (mod : Nat) : Nat :=
  hexVal ((sha256hex (utf8Bytes seed)).toList.take 12) % mod

/-! ## Attribute synthesizer -/

/-- team_base: the dict {1: 178, 2: 188, 3: 198, 4: 210, 5: 222} indexed at
the clamped strength.  The clamp guarantees the key is in 1..5, so the
final else-branch (key 5) makes the lookup total without changing it
on any reachable input. -/
def team_base (ts : Int) : Int :=
  if ts = 1 then 178 else if ts = 2 then 188 else if ts = 3 then 198
  else if ts = 4 then 210 else 222

/-- pos_bias: dict get with default 0. -/
def pos_bias (pos : String) : Int :=
  if pos = "GK" then -4 else if pos = "DF" then -2 else if pos = "MF" then 0
  else if pos = "FW" then 2 else 0

/-- generate_rating from the script. -/
def generate_rating (player_id : String) (team_strength : Int) (pos : String) : Int :=
  let ts := max 1 (min team_strength 5)
  let noise : Int := (stable_int (player_id ++ ":rating") 25 : Nat)
  let rating := team_base ts + pos_bias pos + noise
  max 120 (min rating 238)

/-- generate_development from the script. -/
def generate_development (player_id : String) (pos : String) : Int :=
  let dev_noise : Int := (stable_int (player_id ++ ":dev") 120 : Nat)
  let dev := 80 + dev_noise
  let dev2 := if pos = "GK" then max 60 (dev - 10) else dev
  max 0 (min dev2 250)

/-! ## Schema resolver (pick_col) -/

/-- Lookup in the dict comprehension mapping c.lower() to c over the table
columns.  As with a Python dict built left to right, a later column with the
same lowercase overrides an earlier one. -/
def lowerMap : List String → String → Option String
  | [], _ => none
  | c :: cs, k =>
    match lowerMap cs k with
    | some c2 => some c2
    | none => if pyLower c = k then some c else none

/-- pick_col: first candidate whose lowercase is a key of the lowercase
column map; returns that map's value (the original-case column name). -/
def pick_col (cols : List String) : List String → Option String
  | [] => none
  | cand :: rest =>
    match lowerMap cols (pyLower cand) with
    | some c => some c
    | none => pick_col cols rest

/-! ## Category normalizer (map_position) -/

/-- Text branch of map_position: strip, uppercase, exact synonym matches,
then first-letter rules, default MF.  (ASCII model of str.upper.) -/
def posTextNorm (s : String) : String :=
  let p := pyUpper (pyStrip s)
  if p = "GKP" ∨ p = "GK" ∨ p = "GOALKEEPER" then "GK"
  else if p = "DEF" ∨ p = "DF" ∨ p = "DEFENDER" then "DF"
  else if p = "MID" ∨ p = "MF" ∨ p = "MIDFIELDER" then "MF"
  else if p = "FWD" ∨ p = "FW" ∨ p = "FORWARD" ∨ p = "ST" then "FW"
  else if pyStartsWith p "GK" then "GK"
  else if pyStartsWith p "D" then "DF"
  else if pyStartsWith p "M" then "MF"
  else if pyStartsWith p "F" ∨ pyStartsWith p "S" then "FW"
  else "MF"

/-- map_position.  A numeric non-missing value goes through the code dict
with default MF.  NaN fails the pd.notna guard and reaches the text branch
as str(nan) = "nan" (NaN is truthy); a plain string s gives str(s or "") = s
(also when s is empty, since "" or "" is "").  -/
def map_position : Value → String
  | .vInt i =>
    if i = 1 then "GK" else if i = 2 then "DF" else if i = 3 then "MF"
    else if i = 4 then "FW" else "MF"
  | .vNA => posTextNorm "nan"
  | .vStr s => posTextNorm s

/-! ## Rows and the date/year extractor -/

/-- A table row: labels (the table's column names) with cell values. -/
def Row := List (String × Value)

instance : DecidableEq Row := by unfold Row; infer_instance

def rowGetOpt (r : Row) (k : String) : Option Value := r.lookup k

/-- Label membership test, the Python `key in row`. -/
def rowHas (r : Row) (k : String) : Bool := (rowGetOpt r k).isSome

/-- row[key]; the default is irrelevant on labels present in the row. -/
def rowGet (r : Row) (k : String) : Value := (rowGetOpt r k).getD .vNA

def yearKeys : List String := ["birthYear", "birth_year", "year_of_birth", "dob_year"]

def dateKeys : List String := ["birth_date", "birthdate", "date_of_birth", "dob"]

def dateSeps : List Char := ['-', '/', '.']

/-- s.split(sep)[0] for a single-character separator. -/
def splitFirst (s : String) (c : Char) : String :=
  String.mk (s.toList.takeWhile (fun d => d ≠ c))

/-- The inner separator loop: for each sep, if sep occurs in s and s has at
least 4 characters, try int of the first segment; a parse failure continues
with the next separator. -/
def trySeps (s : String) : List Char → Option Int
  | [] => none
  | c :: cs =>
    if s.toList.contains c ∧ s.length ≥ 4 then
      match parseIntStr (splitFirst s c) with
      | some y => some y
      | none => trySeps s cs
    else trySeps s cs

/-- Body of the date-key loop on the stringified value: separators first,
then the exactly-4-digits direct parse. -/
def dateFieldYear (s : String) : Option Int :=
  match trySeps s dateSeps with
  | some y => some y
  | none =>
    if s.length = 4 ∧ s.toList.all (·.isDigit) then some (digitsVal s.toList : Int)
    else none

/-- First loop of derive_birth_year over the direct year keys. -/
def yearPhase : List String → Row → Option Int
  | [], _ => none
  | k :: ks, row =>
    if rowHas row k ∧ notna (rowGet row k) then
      match pythonInt (rowGet row k) with
      | some y => some y
      | none => yearPhase ks row
    else yearPhase ks row

/-- Second loop of derive_birth_year over the date keys. -/
def datePhase : List String → Row → Option Int
  | [], _ => none
  | k :: ks, row =>
    if rowHas row k ∧ notna (rowGet row k) then
      match dateFieldYear (pyStr (rowGet row k)) with
      | some y => some y
      | none => datePhase ks row
    else datePhase ks row

/-- derive_birth_year: the two loops in sequence, None on total failure. -/
def derive_birth_year (row : Row) : Option Int :=
  match yearPhase yearKeys row with
  | some y => some y
  | none => datePhase dateKeys row

/-! ## Name resolution (main loop, lines 152-157) -/

/-- str(r[col]).strip() when the column resolved and the value is not NA,
else the empty string (the fn / sn pattern). -/
def optNameField (o : Option String) (r : Row) : String :=
  match o with
  | some c => if notna (rowGet r c) then pyStrip (pyStr (rowGet r c)) else ""
  | none => ""

/-- The else-branch: first+last concatenation, or the placeholder. -/
def nameConcat (first second : Option String) (r : Row) (pid : String) : String :=
  let fn := optNameField first r
  let sn := optNameField second r
  if fn ≠ "" ∨ sn ≠ "" then pyStrip (fn ++ " " ++ sn) else "Player " ++ pid

/-- Display-name resolution: stripped web-name when that column resolved
and the value is not NA, otherwise the concatenation branch. -/
def nameOf (web first second : Option String) (r : Row) (pid : String) : String :=
  match web with
  | some c =>
    if notna (rowGet r c) then pyStrip (pyStr (rowGet r c))
    else nameConcat first second r pid
  | none => nameConcat first second r pid

/-! ## Ingestion orchestrator (main), modelled over in-memory tables -/

/-- A loaded table: header names and rows. -/
structure Table where
  cols : List String
  rows : List Row
deriving DecidableEq

/-- One normalized output player record. -/
structure OutRec where
  name : String
  birthYear : Option Int
  nationality : Option Value
  position : String
  rating : Int
  development : Int
  sourcePlayerId : String
  sourceTeamKey : String
deriving DecidableEq, Repr

/-- The assembled document (the parts the modelled core produces): the team
mapping, the ordered player records, and the missing-birth-year count that
the meta note reports. -/
structure Payload where
  teamsOut : List (Value × (String × Option String))
  playersOut : List OutRec
  missingBirthyear : Nat
deriving DecidableEq

/-- Python dict assignment d[k] = v: replace in place if the key exists
(keeping insertion order), else append. -/
def dictInsert {α : Type} (l : List (Value × α)) (k : Value) (v : α) : List (Value × α) :=
  if l.any (fun p => p.1 = k) then l.map (fun p => if p.1 = k then (k, v) else p)
  else l ++ [(k, v)]

/-- Python d.get(k): the value at key k, if present. -/
def dictGet {α : Type} (l : List (Value × α)) (k : Value) : Option α :=
  (l.find? (fun p => p.1 = k)).map Prod.snd

/-- The resolved teams-table columns. -/
structure TeamCols where
  codeCol : Option String
  idCol : Option String
  nameCol : Option String
  shortCol : Option String
  strengthCol : Option String

def resolveTeamCols (cols : List String) : TeamCols :=
  { codeCol := pick_col cols ["code", "team_code"]
    idCol := pick_col cols ["id", "team_id"]
    nameCol := pick_col cols ["name"]
    shortCol := pick_col cols ["short_name", "short"]
    strengthCol := pick_col cols ["strength", "overall_strength"] }

/-- The teams-table loop: builds the strength dict and the names dict.
An error models an uncaught Python exception: r[None] when neither a code
nor an id column resolved, or int() on an unparseable strength value. -/
def buildTeams (tc : TeamCols) (S : List (Value × Int))
    (N : List (Value × (String × Option String))) :
    List Row → Except String (List (Value × Int) × List (Value × (String × Option String)))
  | [] => .ok (S, N)
  | r :: rs =>
    match (match tc.codeCol with
           | some c => Except.ok (rowGet r c)
           | none =>
             match tc.idCol with
             | some c => Except.ok (rowGet r c)
             | none => Except.error "KeyError: None") with
    | .error e => .error e
    | .ok key =>
      match (match tc.strengthCol with
             | some c =>
               if notna (rowGet r c) then
                 match pythonInt (rowGet r c) with
                 | some i => Except.ok i
                 | none => Except.error "ValueError: invalid literal for int()"
               else Except.ok 3
             | none => Except.ok 3) with
      | .error e => .error e
      | .ok strength =>
        let nm := match tc.nameCol with
                  | some c => pyStr (rowGet r c)
                  | none => pyStr key
        let sh := tc.shortCol.map (fun c => pyStr (rowGet r c))
        buildTeams tc (dictInsert S key strength) (dictInsert N key (nm, sh)) rs

/-- The players-table column configuration used by the row loop. -/
structure Cfg where
  pidCol : String
  fkCol : String
  posCol : String
  webCol : Option String
  firstCol : Option String
  secondCol : Option String
  hasNationality : Bool

def pidCands : List String := ["player_id", "id", "element", "element_id"]

def teamCands : List String := ["team_code", "team", "team_id"]

def posCands : List String := ["position", "element_type", "pos"]

/-- Resolve the optional players-table columns and assemble the Cfg. -/
def mkCfg (cols : List String) (pidCol fkCol posCol : String) : Cfg :=
  { pidCol := pidCol
    fkCol := fkCol
    posCol := posCol
    webCol := pick_col cols ["web_name", "name"]
    firstCol := pick_col cols ["first_name"]
    secondCol := pick_col cols ["second_name", "last_name", "surname"]
    hasNationality := cols.contains "nationality" }

/-- One iteration of the players loop: the normalized record of one row. -/
def processRow (cfg : Cfg) (S : List (Value × Int)) (r : Row) : OutRec :=
  let pid := pyStr (rowGet r cfg.pidCol)
  let teamKey := rowGet r cfg.fkCol
  let pos := map_position (rowGet r cfg.posCol)
  let birth := derive_birth_year r
  let name := nameOf cfg.webCol cfg.firstCol cfg.secondCol r pid
  let tStrength := (dictGet S teamKey).getD 3
  { name := name
    birthYear := birth
    nationality := if cfg.hasNationality then rowGetOpt r "nationality" else none
    position := pos
    rating := generate_rating pid tStrength pos
    development := generate_development pid pos
    sourcePlayerId := pid
    sourceTeamKey := pyStr teamKey }

/-- Number of player rows whose birth year fails to derive (the counter the
meta note reports). -/
def countMissing (rows : List Row) : Nat :=
  (rows.filter (fun r => (derive_birth_year r).isNone)).length

/-- The error messages of the three required-column checks. -/
def pidErrMsg : String := "No player id column found (tried player_id/id/element/element_id)."

def teamErrMsg : String := "No team column found (tried team_code/team/team_id)."

def posErrMsg : String := "No position column found (tried position/element_type/pos)."

/-- The orchestrator main, from reading the two tables to the assembled
document.  SystemExit and uncaught exceptions are Except.error; a result is
produced (the output file written) only in the Except.ok case. -/
def mainModel (players teams : Table) : Except String Payload :=
  match pick_col players.cols pidCands with
  | none => .error pidErrMsg
  | some pidCol =>
    match pick_col players.cols teamCands with
    | none => .error teamErrMsg
    | some fkCol =>
      match pick_col players.cols posCands with
      | none => .error posErrMsg
      | some posCol =>
        match buildTeams (resolveTeamCols teams.cols) [] [] teams.rows with
        | .error e => .error e
        | .ok (S, N) =>
          let cfg := mkCfg players.cols pidCol fkCol posCol
          .ok { teamsOut := N
                playersOut := players.rows.map (processRow cfg S)
                missingBirthyear := countMissing players.rows }

/-- The schema-error message main raises, as a function of the players-table
header only. -/
def schemaMsg (cols : List String) : String :=
  if pick_col cols pidCands = none then pidErrMsg
  else if pick_col cols teamCands = none then teamErrMsg
  else posErrMsg

/-! ## Specification-side definitions (written from the spec's words, for
refinement comparisons) -/

/-- Modelled from the spec: the text branch of normalizePosition as the
claim presents it: exact-match synonym table first (in the spec's listed
order), then first-letter prefix rules, then the MF default. -/
def normalizePositionText_spec (s : String) : String :=
  let p := pyUpper (pyStrip s)
  if p ∈ ["GK", "GKP", "GOALKEEPER"] then "GK"
  else if p ∈ ["DEF", "DF", "DEFENDER"] then "DF"
  else if p ∈ ["MID", "MF", "MIDFIELDER"] then "MF"
  else if p ∈ ["FWD", "FW", "FORWARD", "ST"] then "FW"
  else if pyStartsWith p "GK" then "GK"
  else if pyStartsWith p "D" then "DF"
  else if pyStartsWith p "M" then "MF"
  else if pyStartsWith p "F" ∨ pyStartsWith p "S" then "FW"
  else "MF"

/-- Modelled from the spec: deriveBirthYear as the claim presents it:
ordered strategies with first success winning, written with first-success
combinators; per date field the delimiter strategy is tried before the
exactly-4-digits strategy, and every per-field failure advances to the
next candidate. -/
def deriveBirthYear_spec (row : Row) : Option Int :=
  (yearKeys.findSome? fun k =>
    if rowHas row k ∧ notna (rowGet row k) then pythonInt (rowGet row k) else none) <|>
  (dateKeys.findSome? fun k =>
    if rowHas row k ∧ notna (rowGet row k) then
      (let s := pyStr (rowGet row k)
       (dateSeps.findSome? fun c =>
          if s.toList.contains c ∧ s.length ≥ 4 then parseIntStr (splitFirst s c) else none) <|>
       (if s.length = 4 ∧ s.toList.all (·.isDigit) then some ((digitsVal s.toList : Nat) : Int)
        else none))
    else none)

/-! ## Helper lemmas -/

theorem stable_int_lt (seed : String) (m : Nat) (h : 0 < m) : stable_int seed m < m :=
  Nat.mod_lt _ h

/-- Closed form of generate_development: the GK floor and the final clamp
never bind, so the result is 70 resp. 80 plus the hash noise. -/
theorem gen_dev_closed (pid pos : String) :
    generate_development pid pos =
      (if pos = "GK" then (70 : Int) else 80) + (stable_int (pid ++ ":dev") 120 : Nat) := by
  have hn : stable_int (pid ++ ":dev") 120 < 120 := stable_int_lt _ _ (by norm_num)
  unfold generate_development
  by_cases h : pos = "GK" <;> simp [h] <;> omega

/-! ## Claims -/

/-- C1: for every player id string, every position tag, and every integer
team strength (including out-of-range values such as 0 or 9, which are
clamped to the 1..5 range: rating at strength 0 equals rating at 1, and at
9 equals at 5), generate_rating returns an integer in 120..238 and
generate_development returns an integer in 0..250. -/
theorem rating_development_in_range (pid : String) (ts : Int) (pos : String) :
    120 ≤ generate_rating pid ts pos ∧ generate_rating pid ts pos ≤ 238 ∧
    0 ≤ generate_development pid pos ∧ generate_development pid pos ≤ 250 ∧
    generate_rating pid 0 pos = generate_rating pid 1 pos ∧
    generate_rating pid 9 pos = generate_rating pid 5 pos := by
  simp only [generate_rating, generate_development]
  refine ⟨by omega, by omega, by omega, by omega, ?_, ?_⟩ <;> norm_num

/-- C2 counterexample: generate_development is not independent of the
position tag: for player id 1 the GK development differs from the MF
development (the GK branch subtracts 10). -/
theorem development_not_position_independent :
    generate_development "1" "GK" ≠ generate_development "1" "MF" := by
  rw [gen_dev_closed, gen_dev_closed]
  simp

/-- C2 amended: generate_rating is a pure function of the
(player id, team strength, position) triple and generate_development a
pure function of the (player id, position) pair: equal inputs always give
equal outputs, independent of run or process (the functions read no other
state). -/
theorem generate_functions_deterministic (p1 p2 : String) (t1 t2 : Int) (q1 q2 : String)
    (hp : p1 = p2) (ht : t1 = t2) (hq : q1 = q2) :
    generate_rating p1 t1 q1 = generate_rating p2 t2 q2 ∧
    generate_development p1 q1 = generate_development p2 q2 := by
  subst hp; subst ht; subst hq; exact ⟨rfl, rfl⟩

theorem generate_functions_deterministic_witness :
    generate_rating "7" 3 "MF" = generate_rating "7" 3 "MF" ∧
    generate_development "7" "MF" = generate_development "7" "MF" :=
  generate_functions_deterministic "7" "7" 3 3 "MF" "MF" rfl rfl rfl

/-- C10: generate_development actually lands in 70..199: it equals the base
(70 for GK, else 80) plus the hash noise in 0..119, so non-GK results are
in 80..199, GK results in 70..189, and neither the GK floor of 60 nor the
final clamp to 0..250 ever binds. -/
theorem development_effective_range (pid pos : String) :
    generate_development pid pos =
      (if pos = "GK" then (70 : Int) else 80) + (stable_int (pid ++ ":dev") 120 : Nat) ∧
    70 ≤ generate_development pid pos ∧ generate_development pid pos ≤ 199 ∧
    (pos = "GK" → generate_development pid pos ≤ 189) ∧
    (pos ≠ "GK" → 80 ≤ generate_development pid pos) := by
  have h := gen_dev_closed pid pos
  have hn : stable_int (pid ++ ":dev") 120 < 120 := stable_int_lt _ _ (by norm_num)
  refine ⟨h, ?_, ?_, ?_, ?_⟩ <;> rw [h] <;> by_cases hg : pos = "GK" <;> simp [hg] <;> omega

theorem development_effective_range_witness :
    generate_development "9" "GK" ≤ 189 ∧ 80 ≤ generate_development "9" "DF" :=
  ⟨(development_effective_range "9" "GK").2.2.2.1 rfl,
   (development_effective_range "9" "DF").2.2.2.2 (by decide)⟩

/-- C5: a numeric position code maps 1 to GK, 2 to DF, 3 to MF, 4 to FW;
any other integer code, and a missing numeric (NaN, which reaches the text
branch as the string nan), maps to MF. -/
theorem map_position_numeric (i : Int) :
    map_position (.vInt 1) = "GK" ∧ map_position (.vInt 2) = "DF" ∧
    map_position (.vInt 3) = "MF" ∧ map_position (.vInt 4) = "FW" ∧
    (i ≠ 1 → i ≠ 2 → i ≠ 3 → i ≠ 4 → map_position (.vInt i) = "MF") ∧
    map_position .vNA = "MF" := by
  refine ⟨rfl, rfl, rfl, rfl, ?_, by decide⟩
  intro h1 h2 h3 h4
  simp [map_position, h1, h2, h3, h4]

theorem map_position_numeric_witness : map_position (.vInt 7) = "MF" :=
  (map_position_numeric 7).2.2.2.2.1 (by decide) (by decide) (by decide) (by decide)

/-- C6: map_position always returns one of the four canonical tags
GK / DF / MF / FW; on text input it is exactly the spec's cascade: the
exact-match synonym table first, then the first-letter prefix rules
(GK-prefix to GK, else D to DF, M to MF, F or S to FW), default MF. -/
theorem map_position_canonical (v : Value) (s : String) :
    (map_position v = "GK" ∨ map_position v = "DF" ∨ map_position v = "MF" ∨ map_position v = "FW") ∧
    map_position (.vStr s) = normalizePositionText_spec s := by
  constructor
  · cases v with
    | vInt i =>
      simp only [map_position]
      split_ifs <;> simp
    | vNA => exact Or.inr (Or.inr (Or.inl (by decide)))
    | vStr s2 =>
      simp only [map_position, posTextNorm]
      split_ifs <;> simp
  · simp only [map_position, normalizePositionText_spec, posTextNorm,
      List.mem_cons, List.not_mem_nil, or_false]
    set p := pyUpper (pyStrip s) with hp
    by_cases h1 : p = "GKP"
    · simp [h1]
    by_cases h2 : p = "GK"
    · simp [h1, h2]
    by_cases h3 : p = "GOALKEEPER"
    · simp [h1, h2, h3]
    by_cases h4 : p = "DEF"
    · simp [h1, h2, h3, h4]
    by_cases h5 : p = "DF"
    · simp [h1, h2, h3, h4, h5]
    by_cases h6 : p = "DEFENDER"
    · simp [h1, h2, h3, h4, h5, h6]
    by_cases h7 : p = "MID"
    · simp [h1, h2, h3, h4, h5, h6, h7]
    by_cases h8 : p = "MF"
    · simp [h1, h2, h3, h4, h5, h6, h7, h8]
    by_cases h9 : p = "MIDFIELDER"
    · simp [h1, h2, h3, h4, h5, h6, h7, h8, h9]
    by_cases h10 : p = "FWD"
    · simp [h1, h2, h3, h4, h5, h6, h7, h8, h9, h10]
    by_cases h11 : p = "FW"
    · simp [h1, h2, h3, h4, h5, h6, h7, h8, h9, h10, h11]
    by_cases h12 : p = "FORWARD"
    · simp [h1, h2, h3, h4, h5, h6, h7, h8, h9, h10, h11, h12]
    by_cases h13 : p = "ST"
    · simp [h1, h2, h3, h4, h5, h6, h7, h8, h9, h10, h11, h12, h13]
    simp [h1, h2, h3, h4, h5, h6, h7, h8, h9, h10, h11, h12, h13]

theorem yearPhase_eq (row : Row) (ks : List String) :
    yearPhase ks row = ks.findSome? (fun k =>
      if rowHas row k ∧ notna (rowGet row k) then pythonInt (rowGet row k) else none) := by
  induction ks with
  | nil => rfl
  | cons k ks ih =>
    simp only [List.findSome?_cons]
    unfold yearPhase
    by_cases h : rowHas row k ∧ notna (rowGet row k)
    · rw [if_pos h, if_pos h]
      cases pythonInt (rowGet row k)
      · exact ih
      · rfl
    · rw [if_neg h, if_neg h]
      exact ih

theorem datePhase_eq (row : Row) (ks : List String) :
    datePhase ks row = ks.findSome? (fun k =>
      if rowHas row k ∧ notna (rowGet row k) then dateFieldYear (pyStr (rowGet row k)) else none) := by
  induction ks with
  | nil => rfl
  | cons k ks ih =>
    simp only [List.findSome?_cons]
    unfold datePhase
    by_cases h : rowHas row k ∧ notna (rowGet row k)
    · rw [if_pos h, if_pos h]
      cases dateFieldYear (pyStr (rowGet row k))
      · exact ih
      · rfl
    · rw [if_neg h, if_neg h]
      exact ih

theorem trySeps_eq (s : String) (cs : List Char) :
    trySeps s cs = cs.findSome? (fun c =>
      if s.toList.contains c ∧ s.length ≥ 4 then parseIntStr (splitFirst s c) else none) := by
  induction cs with
  | nil => rfl
  | cons c cs ih =>
    simp only [List.findSome?_cons]
    unfold trySeps
    by_cases h : s.toList.contains c ∧ s.length ≥ 4
    · rw [if_pos h, if_pos h]
      cases parseIntStr (splitFirst s c)
      · exact ih
      · rfl
    · rw [if_neg h, if_neg h]
      exact ih

theorem dateFieldYear_eq (s : String) :
    dateFieldYear s =
      ((dateSeps.findSome? fun c =>
          if s.toList.contains c ∧ s.length ≥ 4 then parseIntStr (splitFirst s c) else none) <|>
       (if s.length = 4 ∧ s.toList.all (·.isDigit) then some ((digitsVal s.toList : Nat) : Int)
        else none)) := by
  unfold dateFieldYear
  rw [← trySeps_eq]
  cases trySeps s dateSeps <;> rfl

/-- C4: derive_birth_year is exactly the spec's ordered-strategy search:
direct year fields first, then date fields (delimiter split, then the
exactly-4-digit parse), first success wins, every per-field failure
advances to the next candidate, and total failure gives none. -/
theorem derive_birth_year_strategy_order (row : Row) :
    derive_birth_year row = deriveBirthYear_spec row := by
  unfold derive_birth_year deriveBirthYear_spec
  rw [yearPhase_eq, datePhase_eq]
  have hcongr : (dateKeys.findSome? fun k =>
      if rowHas row k ∧ notna (rowGet row k) then dateFieldYear (pyStr (rowGet row k)) else none) =
      (dateKeys.findSome? fun k =>
        if rowHas row k ∧ notna (rowGet row k) then
          (let s := pyStr (rowGet row k)
           (dateSeps.findSome? fun c =>
              if s.toList.contains c ∧ s.length ≥ 4 then parseIntStr (splitFirst s c) else none) <|>
           (if s.length = 4 ∧ s.toList.all (·.isDigit) then some ((digitsVal s.toList : Nat) : Int)
            else none))
        else none) := by
    congr 1
    funext k
    by_cases h : rowHas row k ∧ notna (rowGet row k)
    · simp only [if_pos h, dateFieldYear_eq]
    · simp [h]
  rw [hcongr]
  cases yearKeys.findSome? (fun k =>
      if rowHas row k ∧ notna (rowGet row k) then pythonInt (rowGet row k) else none) <;> rfl

theorem lowerMap_some (cols : List String) (k c : String) (h : lowerMap cols k = some c) :
    c ∈ cols ∧ pyLower c = k := by
  induction cols with
  | nil => simp [lowerMap] at h
  | cons a as ih =>
    unfold lowerMap at h
    cases hm : lowerMap as k with
    | some c2 =>
      rw [hm] at h
      cases h
      exact ⟨List.mem_cons_of_mem _ (ih hm).1, (ih hm).2⟩
    | none =>
      rw [hm] at h
      by_cases ha : pyLower a = k
      · rw [if_pos ha] at h
        cases h
        exact ⟨List.mem_cons_self _ _, ha⟩
      · rw [if_neg ha] at h
        cases h

theorem lowerMap_none_iff (cols : List String) (k : String) :
    lowerMap cols k = none ↔ ∀ c ∈ cols, pyLower c ≠ k := by
  induction cols with
  | nil => simp [lowerMap]
  | cons a as ih =>
    unfold lowerMap
    cases hm : lowerMap as k with
    | some c2 =>
      simp only [List.mem_cons]
      constructor
      · intro h; cases h
      · intro h
        exact absurd ((lowerMap_some as k c2 hm).2) (h c2 (Or.inr (lowerMap_some as k c2 hm).1))
    | none =>
      by_cases ha : pyLower a = k
      · simp [if_pos ha, ha]
      · simp only [if_neg ha, List.mem_cons]
        constructor
        · rintro - c (rfl | hc)
          · exact ha
          · exact (ih.mp hm) c hc
        · intro h; trivial

/-- C8: pick_col returns, for the first candidate (in caller-supplied
order) whose lowercase matches some column case-insensitively, the
original-case column name of the table; it returns none exactly when no
candidate matches any column case-insensitively. -/
theorem pick_col_first_match (cols cands : List String) :
    pick_col cols cands =
      (cands.find? (fun cand => (lowerMap cols (pyLower cand)).isSome)).bind
        (fun cand => lowerMap cols (pyLower cand)) ∧
    (pick_col cols cands = none ↔ ∀ cand ∈ cands, ∀ c ∈ cols, pyLower c ≠ pyLower cand) ∧
    (∀ c, pick_col cols cands = some c →
      c ∈ cols ∧ ∃ cand ∈ cands, pyLower c = pyLower cand) := by
  refine ⟨?_, ?_, ?_⟩
  · induction cands with
    | nil => rfl
    | cons cand rest ih =>
      simp only [List.find?_cons]
      unfold pick_col
      cases hm : lowerMap cols (pyLower cand) with
      | some c => simp [hm]
      | none => simp [hm, ih]
  · induction cands with
    | nil => simp [pick_col]
    | cons cand rest ih =>
      unfold pick_col
      cases hm : lowerMap cols (pyLower cand) with
      | some c =>
        simp only [List.mem_cons]
        constructor
        · intro h; cases h
        · intro h
          exact absurd (lowerMap_some cols _ c hm).2
            (h cand (Or.inl rfl) c (lowerMap_some cols _ c hm).1)
      | none =>
        simp only [List.mem_cons]
        constructor
        · intro h cand2 hc2 c hc
          rcases hc2 with rfl | hc2
          · exact (lowerMap_none_iff cols (pyLower cand2)).mp hm c hc
          · exact ih.mp h cand2 hc2 c hc
        · intro h
          exact ih.mpr (fun cand2 hc2 c hc => h cand2 (Or.inr hc2) c hc)
  · induction cands with
    | nil => intro c h; cases h
    | cons cand rest ih =>
      intro c
      unfold pick_col
      cases hm : lowerMap cols (pyLower cand) with
      | some c2 =>
        intro h
        cases h
        exact ⟨(lowerMap_some cols _ _ hm).1,
          cand, List.mem_cons_self _ _, (lowerMap_some cols _ _ hm).2⟩
      | none =>
        intro h
        obtain ⟨hc, cand2, hc2, he⟩ := ih c h
        exact ⟨hc, cand2, List.mem_cons_of_mem _ hc2, he⟩

theorem pick_col_first_match_witness :
    "Player_ID" ∈ ["Player_ID"] ∧
    ∃ cand ∈ ["player_id"], pyLower "Player_ID" = pyLower cand :=
  (pick_col_first_match ["Player_ID"] ["player_id"]).2.2 "Player_ID" (by decide)

/-- C3: if any required players-table column (player id, team foreign key,
or position) fails to resolve, main aborts with the corresponding schema
error, determined by the header alone, before any row is processed; no
document is produced. -/
theorem main_schema_error (players teams : Table)
    (h : pick_col players.cols pidCands = none ∨ pick_col players.cols teamCands = none ∨
         pick_col players.cols posCands = none) :
    mainModel players teams = Except.error (schemaMsg players.cols) := by
  unfold mainModel schemaMsg
  rcases h with h | h | h
  · rw [h]
    rfl
  · cases hp : pick_col players.cols pidCands with
    | none => rfl
    | some pidCol =>
      rw [h]
      rfl
  · cases hp : pick_col players.cols pidCands with
    | none => rfl
    | some pidCol =>
      cases ht : pick_col players.cols teamCands with
      | none => rfl
      | some fkCol =>
        rw [h]
        rfl

theorem main_schema_error_witness :
    mainModel ⟨["foo"], []⟩ ⟨["code"], []⟩ =
      Except.error "No player id column found (tried player_id/id/element/element_id)." :=
  (main_schema_error ⟨["foo"], []⟩ ⟨["code"], []⟩ (Or.inl (by decide))).trans
    (congrArg Except.error (by decide))

/-- C9: when the required columns resolve and the team maps build, main
succeeds, emitting exactly one record per player row in order; a row whose
team key is absent from the team-strength lookup is still processed, with
its rating generated from the default strength tier 3 and its development
unaffected (no error is raised). -/
theorem main_default_strength (players teams : Table) (pidCol fkCol posCol : String)
    (h1 : pick_col players.cols pidCands = some pidCol)
    (h2 : pick_col players.cols teamCands = some fkCol)
    (h3 : pick_col players.cols posCands = some posCol)
    (S : List (Value × Int)) (N : List (Value × (String × Option String)))
    (h4 : buildTeams (resolveTeamCols teams.cols) [] [] teams.rows = Except.ok (S, N)) :
    mainModel players teams = Except.ok
      { teamsOut := N
        playersOut := players.rows.map (processRow (mkCfg players.cols pidCol fkCol posCol) S)
        missingBirthyear := countMissing players.rows } ∧
    ∀ r : Row, dictGet S (rowGet r fkCol) = none →
      (processRow (mkCfg players.cols pidCol fkCol posCol) S r).rating =
        generate_rating (pyStr (rowGet r pidCol)) 3 (map_position (rowGet r posCol)) ∧
      (processRow (mkCfg players.cols pidCol fkCol posCol) S r).development =
        generate_development (pyStr (rowGet r pidCol)) (map_position (rowGet r posCol)) := by
  constructor
  · unfold mainModel
    rw [h1, h2, h3, h4]
  · intro r hr
    simp [processRow, mkCfg, hr]

theorem main_default_strength_witness :
    (processRow (mkCfg ["id", "team", "position"] "id" "team" "position")
        [(Value.vInt 9, 4)]
        ([("id", Value.vInt 7), ("team", Value.vInt 1), ("position", Value.vInt 3)] : Row)).rating =
      generate_rating "7" 3 "MF" :=
  ((main_default_strength ⟨["id", "team", "position"], []⟩
      ⟨["code", "strength"], [[("code", Value.vInt 9), ("strength", Value.vInt 4)]]⟩
      "id" "team" "position" (by decide) (by decide) (by decide)
      [(Value.vInt 9, 4)] [(Value.vInt 9, ("9", none))] (by rfl)).2
    ([("id", Value.vInt 7), ("team", Value.vInt 1), ("position", Value.vInt 3)] : Row)
    (by decide)).1

/-- C7 counterexample: the web-name branch tests only pd.notna, not
non-emptiness: with a present but empty web-name value and a first name
Alice, the output name is the empty string, not the concatenation Alice
that the claim requires for an empty web-name field. -/
theorem name_web_empty_string_taken :
    nameOf (some "web_name") (some "first_name") none
      ([("web_name", Value.vStr ""), ("first_name", Value.vStr "Alice")] : Row) "7" = "" ∧
    nameOf (some "web_name") (some "first_name") none
      ([("web_name", Value.vStr ""), ("first_name", Value.vStr "Alice")] : Row) "7" ≠ "Alice" := by
  constructor <;> decide

/-- C7 amended: the output name is the stripped web-name value whenever the
web-name column resolves and the row's value is not missing (pd.notna),
even when that value is empty; otherwise the stripped first and last names
joined by a space (and re-stripped) when either is non-empty after
stripping; otherwise the placeholder Player followed by the id. -/
theorem name_resolution_priority (web first second : Option String) (r : Row) (pid : String) :
    (∀ c, web = some c → notna (rowGet r c) = true →
      nameOf web first second r pid = pyStrip (pyStr (rowGet r c))) ∧
    ((web = none ∨ ∃ c, web = some c ∧ notna (rowGet r c) = false) →
      ((optNameField first r ≠ "" ∨ optNameField second r ≠ "") →
        nameOf web first second r pid =
          pyStrip (optNameField first r ++ " " ++ optNameField second r)) ∧
      (optNameField first r = "" → optNameField second r = "" →
        nameOf web first second r pid = "Player " ++ pid)) := by
  constructor
  · rintro c rfl h
    simp [nameOf, h]
  · rintro (rfl | ⟨c, rfl, hc⟩) <;> constructor
    · intro h
      simp only [nameOf, nameConcat]
      rw [if_pos h]
    · intro hf hs
      simp only [nameOf, nameConcat, hf, hs]
      simp
    · intro h
      simp only [nameOf, hc, Bool.false_eq_true, if_neg, nameConcat]
      rw [if_neg (by simp [hc]), if_pos h]
    · intro hf hs
      simp only [nameOf, nameConcat, hf, hs]
      rw [if_neg (by simp [hc])]
      simp
  
theorem name_resolution_priority_witness :
    nameOf (some "web_name") none none
      ([("web_name", Value.vStr " A. Test ")] : Row) "9" = "A. Test" :=
  ((name_resolution_priority (some "web_name") none none
      ([("web_name", Value.vStr " A. Test ")] : Row) "9").1 "web_name" rfl (by decide)).trans
    (by decide)
